import Mathlib

/-!
# Verification of the conclave transport and concurrency pipeline

A shallow embedding of the core of the `conclave` peer-to-peer message bus
(`src/message.rs`, `src/network.rs`, `src/message_handler.rs`,
`src/processor.rs`) together with proofs about its wire codec, compression
envelope, channel semantics, retry policy and transport validation.

Byte strings (Rust `Vec<u8>` / the bytes of a Rust `String`) are embedded as
`List Nat` whose elements are below 256.  Rust `i64` is embedded as `Int`
restricted to the 64-bit signed range where it matters.  Fallible Rust
functions returning `Result` are embedded as `Option`/`Except`-valued
functions.
-/

namespace Conclave

/-- A list of naturals represents a byte string when every entry fits in a
byte.  (Rust's `Vec<u8>` guarantees this by typing.) -/
def ByteList (l : List Nat) : Prop := ∀ b ∈ l, b < 256

instance : DecidablePred ByteList := fun l =>
  inferInstanceAs (Decidable (∀ b ∈ l, b < 256))

/-! ## UTF-8 validation

Rust `String` values are exactly the UTF-8-valid byte strings; `prost` checks
UTF-8 validity when decoding `string` fields and `String::from_utf8` checks it
in `CompressedAgentMessage::to_agent_message`.  The validator below is the
standard RFC 3629 byte-level automaton, written with explicit fuel (one unit
per decoded scalar, so `l.length` units always suffice) to keep it
structurally recursive. -/

/-- Is `b` a UTF-8 continuation byte (`0x80..=0xBF`)? -/
def utf8Cont (b : Nat) : Bool := 128 ≤ b && b ≤ 191

/-- RFC 3629 UTF-8 validity check, fuelled. -/
def utf8ValidAux : Nat → List Nat → Bool
  | _, [] => true
  | 0, _ :: _ => false
  | fuel + 1, b :: rest =>
    if b ≤ 127 then utf8ValidAux fuel rest
    else if 194 ≤ b && b ≤ 223 then
      match rest with
      | c1 :: r => utf8Cont c1 && utf8ValidAux fuel r
      | [] => false
    else if b = 224 then
      match rest with
      | c1 :: c2 :: r => (160 ≤ c1 && c1 ≤ 191) && utf8Cont c2 && utf8ValidAux fuel r
      | _ => false
    else if 225 ≤ b && b ≤ 236 then
      match rest with
      | c1 :: c2 :: r => utf8Cont c1 && utf8Cont c2 && utf8ValidAux fuel r
      | _ => false
    else if b = 237 then
      match rest with
      | c1 :: c2 :: r => (128 ≤ c1 && c1 ≤ 159) && utf8Cont c2 && utf8ValidAux fuel r
      | _ => false
    else if 238 ≤ b && b ≤ 239 then
      match rest with
      | c1 :: c2 :: r => utf8Cont c1 && utf8Cont c2 && utf8ValidAux fuel r
      | _ => false
    else if b = 240 then
      match rest with
      | c1 :: c2 :: c3 :: r =>
        (144 ≤ c1 && c1 ≤ 191) && utf8Cont c2 && utf8Cont c3 && utf8ValidAux fuel r
      | _ => false
    else if 241 ≤ b && b ≤ 243 then
      match rest with
      | c1 :: c2 :: c3 :: r =>
        utf8Cont c1 && utf8Cont c2 && utf8Cont c3 && utf8ValidAux fuel r
      | _ => false
    else if b = 244 then
      match rest with
      | c1 :: c2 :: c3 :: r =>
        (128 ≤ c1 && c1 ≤ 143) && utf8Cont c2 && utf8Cont c3 && utf8ValidAux fuel r
      | _ => false
    else false

/-- A byte string is valid UTF-8 (i.e. is the byte content of a Rust
`String`). -/
def utf8Valid (l : List Nat) : Bool := utf8ValidAux l.length l

/-! ## Protobuf varints (`prost` wire encoding) -/

/-- LEB128 varint encoding, fuelled; `fuel = n + 1` always suffices because
the value loses seven bits per emitted byte. -/
def encodeVarintAux : Nat → Nat → List Nat
  | 0, _ => []
  | fuel + 1, n => if n < 128 then [n] else (n % 128 + 128) :: encodeVarintAux fuel (n / 128)

/-- LEB128 varint encoding of `n`, as produced by `prost` for any `u64`
value. -/
def encodeVarint (n : Nat) : List Nat := encodeVarintAux (n + 1) n

/-- LEB128 varint decoding: returns the value and the remaining bytes.
(`prost` additionally rejects varints longer than ten bytes; such inputs
never arise in this development.) -/
def decodeVarint : List Nat → Option (Nat × List Nat)
  | [] => none
  | b :: rest =>
    if b < 128 then some (b, rest)
    else
      match decodeVarint rest with
      | some (v, r) => some (b % 128 + 128 * v, r)
      | none => none

/-- Two's-complement view of an `i64` as the `u64` that `prost` puts on the
wire for an `int64` field. -/
def i64ToU64 (t : Int) : Nat := (t % (2 ^ 64 : Int)).toNat

/-- Recover the `i64` from its `u64` wire representation. -/
def u64ToI64 (n : Nat) : Int :=
  if n % 2 ^ 64 < 2 ^ 63 then ((n % 2 ^ 64 : Nat) : Int)
  else ((n % 2 ^ 64 : Nat) : Int) - 2 ^ 64

/-! ## The wire message record -/

/-- Modelled from the spec: the protobuf schema `proto/agent_message.proto`
referenced by `build.rs` is not under `src/`; §3 and §6 of the spec give the
record `{ sender_id: string, timestamp: int64 (seconds since epoch),
content: string }` with the fields in that order, so they are modelled as
protobuf fields 1, 2 and 3.  String fields are embedded as their UTF-8 byte
lists. -/
structure AgentMessage where
  sender_id : List Nat
  timestamp : Int
  content : List Nat
deriving DecidableEq, Repr

/-- The default (all-fields-absent) protobuf message. -/
def AgentMessage.default : AgentMessage := ⟨[], 0, []⟩

/-- `AgentMessage::serialize` (src/message.rs): `prost` encoding.  Fields are
written in ascending tag order; a field equal to its protobuf default (empty
string, zero integer) is skipped.  Tag bytes: field 1 length-delimited =
`0x0A`, field 2 varint = `0x10`, field 3 length-delimited = `0x1A`. -/
def AgentMessage.serialize (m : AgentMessage) : List Nat :=
  (if m.sender_id = [] then [] else 10 :: (encodeVarint m.sender_id.length ++ m.sender_id))
    ++ ((if m.timestamp = 0 then [] else 16 :: encodeVarint (i64ToU64 m.timestamp))
      ++ (if m.content = [] then [] else 26 :: (encodeVarint m.content.length ++ m.content)))

/-- Read `n` bytes from the front of `l`, failing if fewer remain. -/
def readBytes (n : Nat) (l : List Nat) : Option (List Nat × List Nat) :=
  if n ≤ l.length then some (l.take n, l.drop n) else none

/-- One `prost` decode loop: read a field key, dispatch on it, merge into the
accumulator, skipping unknown fields by wire type.  Fuelled; every iteration
consumes at least one byte, so any fuel above the buffer length is
equivalent. -/
def decodeLoop : Nat → List Nat → AgentMessage → Option AgentMessage
  | _, [], acc => some acc
  | 0, _ :: _, _ => none
  | fuel + 1, b :: bs, acc =>
    match decodeVarint (b :: bs) with
    | none => none
    | some (key, rest) =>
      if key = 10 then
        match decodeVarint rest with
        | none => none
        | some (len, r2) =>
          match readBytes len r2 with
          | none => none
          | some (s, r3) =>
            if utf8Valid s then decodeLoop fuel r3 { acc with sender_id := s } else none
      else if key = 16 then
        match decodeVarint rest with
        | none => none
        | some (v, r2) => decodeLoop fuel r2 { acc with timestamp := u64ToI64 v }
      else if key = 26 then
        match decodeVarint rest with
        | none => none
        | some (len, r2) =>
          match readBytes len r2 with
          | none => none
          | some (s, r3) =>
            if utf8Valid s then decodeLoop fuel r3 { acc with content := s } else none
      else
        match key % 8 with
        | 0 =>
          match decodeVarint rest with
          | some (_, r2) => decodeLoop fuel r2 acc
          | none => none
        | 1 =>
          match readBytes 8 rest with
          | some (_, r2) => decodeLoop fuel r2 acc
          | none => none
        | 2 =>
          match decodeVarint rest with
          | some (len, r2) =>
            match readBytes len r2 with
            | some (_, r3) => decodeLoop fuel r3 acc
            | none => none
          | none => none
        | 5 =>
          match readBytes 4 rest with
          | some (_, r2) => decodeLoop fuel r2 acc
          | none => none
        | _ => none

/-- `AgentMessage::deserialize` (src/message.rs): `prost` decoding of a byte
buffer into a message, starting from the default message. -/
def AgentMessage.deserialize (bytes : List Nat) : Option AgentMessage :=
  decodeLoop (bytes.length + 3) bytes AgentMessage.default

/-! ## Base64 (the `base64` crate's `STANDARD` engine)

`CompressedAgentMessage::serialize` base64-encodes compressed payloads with
the standard alphabet and padding; `CompressedAgentMessage::deserialize`
decodes them.  The `STANDARD` engine requires canonical padding and rejects
non-zero trailing bits, which the decoder below mirrors. -/

/-- The standard base64 alphabet: 6-bit value to ASCII code. -/
def b64Char (n : Nat) : Nat :=
  if n < 26 then 65 + n
  else if n < 52 then 97 + (n - 26)
  else if n < 62 then 48 + (n - 52)
  else if n = 62 then 43
  else 47

/-- Inverse alphabet lookup: ASCII code to 6-bit value. -/
def b64Val (c : Nat) : Option Nat :=
  if 65 ≤ c ∧ c ≤ 90 then some (c - 65)
  else if 97 ≤ c ∧ c ≤ 122 then some (c - 97 + 26)
  else if 48 ≤ c ∧ c ≤ 57 then some (c - 48 + 52)
  else if c = 43 then some 62
  else if c = 47 then some 63
  else none

/-- Standard padded base64 encoding of a byte string (ASCII codes; `61` is
the pad character `=`). -/
def base64Encode : List Nat → List Nat
  | [] => []
  | [b0] => [b64Char (b0 / 4), b64Char (b0 % 4 * 16), 61, 61]
  | [b0, b1] => [b64Char (b0 / 4), b64Char (b0 % 4 * 16 + b1 / 16), b64Char (b1 % 16 * 4), 61]
  | b0 :: b1 :: b2 :: rest =>
    b64Char (b0 / 4) :: b64Char (b0 % 4 * 16 + b1 / 16) ::
      b64Char (b1 % 16 * 4 + b2 / 64) :: b64Char (b2 % 64) :: base64Encode rest

/-- Standard padded base64 decoding: requires length a multiple of four,
canonical padding only in the final group, and zero trailing bits. -/
def base64Decode : List Nat → Option (List Nat)
  | [] => some []
  | c0 :: c1 :: c2 :: c3 :: rest =>
    match b64Val c0, b64Val c1 with
    | some v0, some v1 =>
      if c2 = 61 then
        if c3 = 61 ∧ rest = [] ∧ v1 % 16 = 0 then some [v0 * 4 + v1 / 16] else none
      else
        match b64Val c2 with
        | some v2 =>
          if c3 = 61 then
            if rest = [] ∧ v2 % 4 = 0 then some [v0 * 4 + v1 / 16, v1 % 16 * 16 + v2 / 4]
            else none
          else
            match b64Val c3 with
            | some v3 =>
              match base64Decode rest with
              | some ds =>
                some ((v0 * 4 + v1 / 16) :: (v1 % 16 * 16 + v2 / 4) :: (v2 % 4 * 64 + v3) :: ds)
              | none => none
            | none => none
        | none => none
    | _, _ => none
  | _ => none

/-! ## Compression (src/message.rs, `compression` module)

The gzip transform itself lives in the external `flate2` crate.  It is
modelled by its contract: a lossless code whose output begins with the gzip
magic bytes `0x1f 0x8b` and whose decoder fails on inputs that do not carry
that framing; `decompress_content` reads the result back as a `String`, so it
additionally UTF-8-validates.  (Real DEFLATE also fails on some
corrupted-but-magic-framed inputs; none of the inputs in this development
exercise that case.) -/

/-- `compression::compress_content`: gzip model — magic header followed by
the payload bytes. -/
def compress_content (content : List Nat) : List Nat := 31 :: 139 :: content

/-- `compression::decompress_content`: gzip model — checks the magic header
and UTF-8 validity (as `read_to_string` does), returning the payload. -/
def decompress_content : List Nat → Option (List Nat)
  | 31 :: 139 :: rest => if utf8Valid rest then some rest else none
  | _ => none

/-- `compression::should_compress`: true iff the byte length of the content
strictly exceeds the threshold. -/
def should_compress (content : List Nat) (threshold : Nat) : Bool :=
  content.length > threshold

/-! ## The compression envelope (src/message.rs, `CompressedAgentMessage`) -/

/-- `CompressedAgentMessage`: either-compressed transport wrapper. -/
structure CompressedAgentMessage where
  sender_id : List Nat
  timestamp : Int
  compressed_data : List Nat
  is_compressed : Bool
  original_size : Nat
deriving DecidableEq, Repr

/-- `AgentMessage::to_compressed`: compress iff `should_compress`; the Rust
`Result` never fails because writing to a `Vec` cannot fail, so the model is
total. -/
def AgentMessage.to_compressed (m : AgentMessage) (compression_threshold : Nat) :
    CompressedAgentMessage :=
  if should_compress m.content compression_threshold then
    { sender_id := m.sender_id, timestamp := m.timestamp,
      compressed_data := compress_content m.content,
      is_compressed := true, original_size := m.content.length }
  else
    { sender_id := m.sender_id, timestamp := m.timestamp,
      compressed_data := m.content,
      is_compressed := false, original_size := m.content.length }

/-- `CompressedAgentMessage::to_agent_message`: decompress if compressed,
else reinterpret the raw bytes as a `String` (`String::from_utf8`). -/
def CompressedAgentMessage.to_agent_message (cm : CompressedAgentMessage) :
    Option AgentMessage :=
  match (if cm.is_compressed then decompress_content cm.compressed_data
         else if utf8Valid cm.compressed_data then some cm.compressed_data else none) with
  | some c => some ⟨cm.sender_id, cm.timestamp, c⟩
  | none => none

/-- `CompressedAgentMessage::serialize`: wrap into a temporary
`AgentMessage` whose content is the base64 text of the compressed bytes, or
the raw bytes reinterpreted as text (`String::from_utf8_lossy`, which is the
identity on the valid-UTF-8 data produced by `to_compressed`), then
protobuf-encode. -/
def CompressedAgentMessage.serialize (cm : CompressedAgentMessage) : List Nat :=
  AgentMessage.serialize
    ⟨cm.sender_id, cm.timestamp,
      if cm.is_compressed then base64Encode cm.compressed_data else cm.compressed_data⟩

/-- `CompressedAgentMessage::deserialize`: protobuf-decode, then reverse the
base64 step according to the caller-supplied compression hint. -/
def CompressedAgentMessage.deserialize (bytes : List Nat) (hintCompressed : Bool)
    (originalSize : Nat) : Option CompressedAgentMessage :=
  match AgentMessage.deserialize bytes with
  | none => none
  | some am =>
    match (if hintCompressed then base64Decode am.content else some am.content) with
    | none => none
    | some data =>
      some ⟨am.sender_id, am.timestamp, data, hintCompressed, originalSize⟩

/-- Does a byte string begin with the given pattern (Rust
`str::starts_with`)? -/
def leadsWith : List Nat → List Nat → Bool
  | [], _ => true
  | _ :: _, [] => false
  | a :: as, b :: bs => a = b && leadsWith as bs

/-- The bytes put on the wire by `NetworkManager::send_message`
(src/network.rs): compress by threshold, then serialize the envelope. -/
def sendWireBytes (m : AgentMessage) (compression_threshold : Nat) : List Nat :=
  (m.to_compressed compression_threshold).serialize

/-- The codec path of `NetworkManager::receive_message` (src/network.rs):
protobuf-decode the datagram, infer `is_compressed` from whether the content
starts with `"H4"` (bytes 72, 52) or `"eJ"` (bytes 101, 74), re-decode as a
`CompressedAgentMessage` with that hint, and unwrap the envelope. -/
def receivePipeline (buffer : List Nat) : Option AgentMessage :=
  match AgentMessage.deserialize buffer with
  | none => none
  | some temp =>
    let isCompressedHint := leadsWith [72, 52] temp.content || leadsWith [101, 74] temp.content
    match CompressedAgentMessage.deserialize buffer isCompressedHint temp.content.length with
    | none => none
    | some cm => cm.to_agent_message

/-! ## Transport state and validation (src/network.rs)

`NetworkManager::new` and `create_multicast_socket` interleave pure checks
with OS socket calls.  The embedding makes the OS explicit: an oracle
`os : SockOp → Bool` says whether each attempted operation succeeds, and the
functions return both the list of operations attempted (in order) and the
outcome, so that "checked before any socket syscall" is the statement that
the attempted-operation list is empty. -/

/-- An IP address: four octets, or eight 16-bit IPv6 segments. -/
inductive IpAddr where
  | v4 (a b c d : Nat)
  | v6 (segs : List Nat)
deriving DecidableEq, Repr

/-- Rust `IpAddr::is_multicast`: IPv4 `224.0.0.0/4`
(first octet `& 0xf0 == 0xe0`), IPv6 `ff00::/8`
(first segment `& 0xff00 == 0xff00`). -/
def IpAddr.isMulticast : IpAddr → Bool
  | .v4 a _ _ _ => a % 256 / 16 = 14
  | .v6 segs =>
    match segs with
    | s0 :: _ => s0 % 65536 / 256 = 255
    | [] => false

/-- `NetworkConfig` (src/network.rs).  The optional bind interface string is
embedded as its character list. -/
structure NetworkConfig where
  multicast_ip : IpAddr
  port : Nat
  interface : Option (List Char)
  buffer_size : Nat
  compression_threshold : Nat
deriving DecidableEq

/-- An observable message for `NetworkError::ConfigError`. -/
inductive ConfigMsg where
  | notMulticast
  | ipv6Unsupported
  | compressFailed
deriving DecidableEq, Repr

/-- `NetworkError` (src/network.rs). -/
inductive NetworkError where
  | socketCreation
  | multicastJoin
  | sendError
  | receiveError
  | serializationError
  | deserializationError
  | configError (msg : ConfigMsg)
deriving DecidableEq, Repr

/-- A socket syscall attempted by `create_multicast_socket`, in the order
the code performs them. -/
inductive SockOp where
  | socketCreate
  | setReuseAddr
  | setReusePort
  | bindWildcard (port : Nat)
  | joinMulticast (group : IpAddr) (iface : Nat × Nat × Nat × Nat)
  | setNonblocking
deriving DecidableEq, Repr

/-- One decimal digit of an ASCII character. -/
def digToNat (c : Char) : Option Nat :=
  if 48 ≤ c.toNat ∧ c.toNat ≤ 57 then some (c.toNat - 48) else none

/-- One octet of Rust's `Ipv4Addr` parser: up to three digits, value at most
255, no leading zeros. -/
def parseOctet : List Char → Option (Nat × List Char)
  | [] => none
  | c :: rest =>
    match digToNat c with
    | none => none
    | some d1 =>
      if d1 = 0 then
        match rest with
        | c2 :: _ => if (digToNat c2).isSome then none else some (0, rest)
        | [] => some (0, [])
      else
        match rest with
        | [] => some (d1, [])
        | c2 :: rest2 =>
          match digToNat c2 with
          | none => some (d1, rest)
          | some d2 =>
            match rest2 with
            | [] => some (d1 * 10 + d2, [])
            | c3 :: rest3 =>
              match digToNat c3 with
              | none => some (d1 * 10 + d2, rest2)
              | some d3 =>
                if d1 * 100 + d2 * 10 + d3 ≤ 255 then some (d1 * 100 + d2 * 10 + d3, rest3)
                else none

/-- Rust `str::parse::<Ipv4Addr>()`: four dot-separated octets consuming the
whole string. -/
def parseIpv4 (s : List Char) : Option (Nat × Nat × Nat × Nat) :=
  match parseOctet s with
  | some (a, '.' :: r1) =>
    match parseOctet r1 with
    | some (b, '.' :: r2) =>
      match parseOctet r2 with
      | some (c, '.' :: r3) =>
        match parseOctet r3 with
        | some (d, []) => some (a, b, c, d)
        | _ => none
      | _ => none
    | _ => none
  | _ => none

/-- `Ipv4Addr::UNSPECIFIED` (`0.0.0.0`), the wildcard interface. -/
def unspecifiedV4 : Nat × Nat × Nat × Nat := (0, 0, 0, 0)

/-- The interface resolution step of `create_multicast_socket`: parse the
configured string as an IPv4 address, falling back to the wildcard on a
parse failure or an absent configuration. -/
def interfaceIp : Option (List Char) → Nat × Nat × Nat × Nat
  | none => unspecifiedV4
  | some s => (parseIpv4 s).getD unspecifiedV4

/-- `NetworkManager::create_multicast_socket` (src/network.rs): socket
creation, reuse options (a `SO_REUSEPORT` failure is only logged), wildcard
bind, then — only for IPv4 groups — the multicast join and non-blocking
mode; an IPv6 group is rejected at that point.  Returns the attempted
operations in order together with the outcome. -/
def create_multicast_socket (config : NetworkConfig) (os : SockOp → Bool) :
    List SockOp × Except NetworkError Unit :=
  if !os .socketCreate then ([.socketCreate], .error .socketCreation)
  else if !os .setReuseAddr then
    ([.socketCreate, .setReuseAddr], .error .socketCreation)
  else
    let pre : List SockOp := [.socketCreate, .setReuseAddr, .setReusePort]
    if !os (.bindWildcard config.port) then
      (pre ++ [.bindWildcard config.port], .error .socketCreation)
    else
      match config.multicast_ip with
      | .v4 a b c d =>
        let iface := interfaceIp config.interface
        let joined := pre ++ [.bindWildcard config.port, .joinMulticast (.v4 a b c d) iface]
        if !os (.joinMulticast (.v4 a b c d) iface) then (joined, .error .multicastJoin)
        else if !os .setNonblocking then
          (joined ++ [.setNonblocking], .error .socketCreation)
        else (joined ++ [.setNonblocking], .ok ())
      | .v6 _ =>
        (pre ++ [.bindWildcard config.port], .error (.configError .ipv6Unsupported))

/-- `NetworkManager::new` (src/network.rs): validate that the group address
is multicast before any socket work, then build the socket. -/
def networkNew (config : NetworkConfig) (os : SockOp → Bool) :
    List SockOp × Except NetworkError Unit :=
  if !config.multicast_ip.isMulticast then ([], .error (.configError .notMulticast))
  else create_multicast_socket config os

/-! ## The intake-to-processing queue (src/message_handler.rs)

The tokio MPSC channel is embedded as its buffered contents plus flags for
each side having been dropped; the blocking `recv` is embedded as an outcome
type with an explicit `blocked` constructor for the suspension case. -/

/-- Cause text carried by `MessageHandlerError::ChannelSendError`. -/
inductive SendErrCause where
  | receiverDropped
  | bufferFull
deriving DecidableEq, Repr

/-- `MessageHandlerError` (src/message_handler.rs). -/
inductive MessageHandlerError where
  | channelSendError (cause : SendErrCause)
  | channelReceiveError
  | channelClosed
deriving DecidableEq, Repr

/-- `ChannelConfig` (src/message_handler.rs). -/
structure ChannelConfig where
  buffer_size : Nat
deriving DecidableEq

/-- The state of the MPSC channel: FIFO buffer plus whether either side has
been dropped. -/
structure ChannelState where
  buffer : List AgentMessage
  receiverClosed : Bool
  senderClosed : Bool
deriving DecidableEq

/-- `MessageHandler` (src/message_handler.rs): the agent id used for
self-filtering and the channel capacity fixed at construction. -/
structure MessageHandler where
  agent_id : List Nat
  capacity : Nat
deriving DecidableEq

/-- `MessageHandler::new`: a handler plus a fresh, open, empty channel. -/
def MessageHandler.new (agent_id : List Nat) (config : ChannelConfig) :
    MessageHandler × ChannelState :=
  (⟨agent_id, config.buffer_size⟩, ⟨[], false, false⟩)

/-- `MessageHandler::try_send_message`: non-blocking send.  Mirrors tokio's
`try_send`: a dropped receiver wins over a full buffer
(`TrySendError::Closed` vs `TrySendError::Full`); on success the message is
appended to the FIFO buffer. -/
def MessageHandler.try_send_message (h : MessageHandler) (st : ChannelState)
    (msg : AgentMessage) : Except MessageHandlerError ChannelState :=
  if st.receiverClosed then .error .channelClosed
  else if h.capacity ≤ st.buffer.length then .error (.channelSendError .bufferFull)
  else .ok { st with buffer := st.buffer ++ [msg] }

/-- Outcome of the blocking, filtering receive. -/
inductive RecvOutcome where
  | got (m : AgentMessage) (rest : List AgentMessage)
  | closedErr
  | blocked
deriving DecidableEq

/-- `MessageHandler::receive_message`: loop over `recv`, silently skipping
messages whose `sender_id` equals the handler's own id; when the buffer is
exhausted, fail with `ChannelClosed` if the producer side is gone, otherwise
suspend. -/
def MessageHandler.receive_message (h : MessageHandler) (senderClosed : Bool) :
    List AgentMessage → RecvOutcome
  | [] => if senderClosed then .closedErr else .blocked
  | m :: rest =>
    if m.sender_id = h.agent_id then h.receive_message senderClosed rest
    else .got m rest

/-! ## The pipeline loops (src/processor.rs) -/

/-- Outcome of one iteration of the UDP intake loop. -/
inductive IntakeOutcome where
  | continued (st : ChannelState)
  | failed (e : NetworkError)
deriving DecidableEq

/-- One iteration of `Processor::spawn_udp_intake_task`, as a function of the
result of `receive_message` and the channel state: a deserialization error
is logged and skipped; a successful receive is forwarded with
`try_send_message`, any push error being logged and the message dropped; any
other receive error ends the task with an error. -/
def intakeStep (h : MessageHandler) (st : ChannelState)
    (recv : Except NetworkError AgentMessage) : IntakeOutcome :=
  match recv with
  | .ok msg =>
    match h.try_send_message st msg with
    | .ok st2 => .continued st2
    | .error _ => .continued st
  | .error .deserializationError => .continued st
  | .error e => .failed e

/-- One step of the `tokio_retry::strategy::ExponentialBackoff` iterator,
modelled from that crate: emit the current delay (capped at the configured
maximum — on a capped emission the state is left unchanged), then multiply
the state by the base. -/
def backoffNext (cur base maxDelay : Nat) : Nat × Nat :=
  if maxDelay < cur then (maxDelay, cur) else (cur, cur * base)

/-- The first `count` delays of the backoff iterator. -/
def backoffDelays : Nat → Nat → Nat → Nat → List Nat
  | 0, _, _, _ => []
  | count + 1, cur, base, maxDelay =>
    (backoffNext cur base maxDelay).1 ::
      backoffDelays count (backoffNext cur base maxDelay).2 base maxDelay

/-- The delay sequence configured in `spawn_llm_processing_task`:
`ExponentialBackoff::from_millis(100).max_delay(10 s).take(5)`
(`from_millis(base)` starts the iterator state at `base` with multiplier
`base`), in milliseconds. -/
def codeRetryDelays : List Nat := backoffDelays 5 100 100 10000

/-- `tokio_retry::Retry::spawn`, modelled from that crate: run the action;
on an error, if the strategy iterator yields another delay, sleep and retry,
otherwise resolve to that error.  `attempts i` is the result of the
`(i+1)`-th invocation of the action. -/
def retryRun {ε α : Type} (attempts : Nat → Except ε α) :
    List Nat → Nat → Except ε α
  | [], i => attempts i
  | _ :: ds, i =>
    match attempts i with
    | .ok v => .ok v
    | .error _ => retryRun attempts ds (i + 1)

/-- The reply built by one iteration of `spawn_llm_processing_task` for a
received message: the LLM call under the retry policy; on final failure the
textual rendering of the error (embedded as the error value itself, a byte
string) becomes the reply content; the reply is a fresh message from this
agent. -/
def processReply (agent_id : List Nat) (now : Int)
    (llmAttempts : Nat → Except (List Nat) (List Nat)) : AgentMessage :=
  match retryRun llmAttempts codeRetryDelays 0 with
  | .ok response => ⟨agent_id, now, response⟩
  | .error e => ⟨agent_id, now, e⟩

/-- Outcome of one iteration of the LLM processing loop. -/
inductive ProcOutcome where
  | sentReply (reply : AgentMessage)
  | failed
deriving DecidableEq

/-- One iteration of the `spawn_llm_processing_task` loop: a channel error
ends the task; otherwise the reply is generated (never failing the loop) and
broadcast, a send failure ending the task. -/
def processStep (agent_id : List Nat) (now : Int)
    (recv : Except MessageHandlerError AgentMessage)
    (llmAttempts : Nat → Except (List Nat) (List Nat)) (sendOk : Bool) : ProcOutcome :=
  match recv with
  | .error _ => .failed
  | .ok _ =>
    if sendOk then .sentReply (processReply agent_id now llmAttempts) else .failed

/-! ## Supporting lemmas -/

theorem takeAppend (s rest : List Nat) : (s ++ rest).take s.length = s := by
  induction s with
  | nil => rfl
  | cons a as ih => simp [List.take, ih]

theorem dropAppend (s rest : List Nat) : (s ++ rest).drop s.length = rest := by
  induction s with
  | nil => rfl
  | cons a as ih => simp [List.drop, ih]

theorem decodeVarint_encodeAux (fuel : Nat) :
    ∀ n rest, n < 128 ^ (fuel + 1) →
      decodeVarint (encodeVarintAux (fuel + 1) n ++ rest) = some (n, rest) := by
  induction fuel with
  | zero =>
    intro n rest h
    have hn : n < 128 := by simpa using h
    simp [encodeVarintAux, hn, decodeVarint]
  | succ f ih =>
    intro n rest h
    by_cases hn : n < 128
    · simp [encodeVarintAux, hn, decodeVarint]
    · have hd : n / 128 < 128 ^ (f + 1) := by
        rw [Nat.div_lt_iff_lt_mul (by norm_num)]
        calc n < 128 ^ (f + 1 + 1) := h
          _ = 128 ^ (f + 1) * 128 := by ring
      have hrec := ih (n / 128) rest hd
      simp only [encodeVarintAux] at hrec
      simp only [encodeVarintAux, hn, if_false, List.cons_append]
      simp only [decodeVarint, hrec]
      have hb : ¬ (n % 128 + 128 < 128) := by omega
      simp only [hb, if_false, Option.some.injEq, Prod.mk.injEq, and_true]
      omega

theorem decodeVarint_encode (n : Nat) (rest : List Nat) :
    decodeVarint (encodeVarint n ++ rest) = some (n, rest) := by
  have h : n < 128 ^ (n + 1) := by
    calc n < 2 ^ n := Nat.lt_two_pow n
      _ ≤ 128 ^ n := Nat.pow_le_pow_left (by norm_num) n
      _ ≤ 128 ^ (n + 1) := Nat.pow_le_pow_right (by norm_num) (Nat.le_succ n)
  exact decodeVarint_encodeAux n n rest h

theorem u64ToI64_i64ToU64 {t : Int} (hlo : -(2 ^ 63) ≤ t) (hhi : t < 2 ^ 63) :
    u64ToI64 (i64ToU64 t) = t := by
  unfold u64ToI64 i64ToU64
  split_ifs <;> omega

theorem utf8ValidAux_ascii :
    ∀ (fuel : Nat) (l : List Nat), l.length ≤ fuel →
      (∀ b ∈ l, b ≤ 127) → utf8ValidAux fuel l = true := by
  intro fuel
  induction fuel with
  | zero =>
    intro l hl _
    cases l with
    | nil => rfl
    | cons b rest => simp at hl
  | succ f ih =>
    intro l hl hb
    cases l with
    | nil => rfl
    | cons b rest =>
      have hb0 : b ≤ 127 := hb b (by simp)
      simp only [utf8ValidAux, hb0, if_true]
      exact ih rest (by simpa using hl) (fun x hx => hb x (by simp [hx]))

theorem utf8Valid_ascii (l : List Nat) (hb : ∀ b ∈ l, b ≤ 127) : utf8Valid l = true :=
  utf8ValidAux_ascii l.length l le_rfl hb

theorem readBytes_append (s rest : List Nat) : readBytes s.length (s ++ rest) = some (s, rest) := by
  simp [readBytes, takeAppend, dropAppend]

theorem decodeLoop_field1 (fuel : Nat) (s rest : List Nat) (acc : AgentMessage)
    (hv : utf8Valid s) :
    decodeLoop (fuel + 1) (10 :: (encodeVarint s.length ++ (s ++ rest))) acc
      = decodeLoop fuel rest { acc with sender_id := s } := by
  simp only [decodeLoop, decodeVarint, show (10:Nat) < 128 by norm_num, if_true,
    decodeVarint_encode, readBytes_append, hv, reduceIte]

theorem decodeLoop_field2 (fuel : Nat) (v : Nat) (rest : List Nat) (acc : AgentMessage) :
    decodeLoop (fuel + 1) (16 :: (encodeVarint v ++ rest)) acc
      = decodeLoop fuel rest { acc with timestamp := u64ToI64 v } := by
  simp only [decodeLoop, decodeVarint, show (16:Nat) < 128 by norm_num, if_true,
    decodeVarint_encode, reduceIte]
  norm_num

theorem decodeLoop_field3 (fuel : Nat) (s rest : List Nat) (acc : AgentMessage)
    (hv : utf8Valid s) :
    decodeLoop (fuel + 1) (26 :: (encodeVarint s.length ++ (s ++ rest))) acc
      = decodeLoop fuel rest { acc with content := s } := by
  simp only [decodeLoop, decodeVarint, show (26:Nat) < 128 by norm_num, if_true,
    decodeVarint_encode, readBytes_append, hv, reduceIte]
  norm_num

theorem decodeLoop_field1_last (fuel : Nat) (s : List Nat) (acc : AgentMessage)
    (hv : utf8Valid s) :
    decodeLoop (fuel + 1) (10 :: (encodeVarint s.length ++ s)) acc
      = some { acc with sender_id := s } := by
  have h := decodeLoop_field1 fuel s [] acc hv
  simpa [decodeLoop] using h

theorem decodeLoop_field2_last (fuel : Nat) (v : Nat) (acc : AgentMessage) :
    decodeLoop (fuel + 1) (16 :: encodeVarint v) acc
      = some { acc with timestamp := u64ToI64 v } := by
  have h := decodeLoop_field2 fuel v [] acc
  simpa [decodeLoop] using h

theorem decodeLoop_field3_last (fuel : Nat) (s : List Nat) (acc : AgentMessage)
    (hv : utf8Valid s) :
    decodeLoop (fuel + 1) (26 :: (encodeVarint s.length ++ s)) acc
      = some { acc with content := s } := by
  have h := decodeLoop_field3 fuel s [] acc hv
  simpa [decodeLoop] using h

/-- `prost` round trip at any sufficient fuel: decoding what
`AgentMessage::serialize` wrote recovers the message, provided the string
fields are valid UTF-8 (true of any Rust `String`) and the timestamp fits in
`i64` (true of any Rust `i64`). -/
theorem decodeLoop_serialize (m : AgentMessage)
    (h1 : utf8Valid m.sender_id) (h3 : utf8Valid m.content)
    (hlo : -(2 ^ 63) ≤ m.timestamp) (hhi : m.timestamp < 2 ^ 63) :
    ∀ fuel, decodeLoop (fuel + 3) m.serialize AgentMessage.default = some m := by
  intro fuel
  obtain ⟨sid, ts, ct⟩ := m
  simp only at h1 h3 hlo hhi
  have hts : u64ToI64 (i64ToU64 ts) = ts := u64ToI64_i64ToU64 hlo hhi
  unfold AgentMessage.serialize
  by_cases e1 : sid = [] <;> by_cases e2 : ts = 0 <;> by_cases e3 : ct = [] <;>
    simp only [e1, e2, e3, if_true, if_false, reduceIte, List.nil_append, List.append_nil,
      List.cons_append, List.append_assoc]
  · -- all three fields absent
    subst e1 e2 e3
    simp [decodeLoop, AgentMessage.default]
  · -- only content present
    subst e1 e2
    rw [show fuel + 3 = (fuel + 2) + 1 from rfl, decodeLoop_field3_last _ _ _ h3]
    simp [AgentMessage.default]
  · -- only timestamp present
    subst e1 e3
    rw [show fuel + 3 = (fuel + 2) + 1 from rfl, decodeLoop_field2_last, hts]
    simp [AgentMessage.default]
  · -- timestamp and content present
    subst e1
    rw [show fuel + 3 = (fuel + 2) + 1 from rfl, decodeLoop_field2,
      decodeLoop_field3_last _ _ _ h3, hts]
    simp [AgentMessage.default]
  · -- only sender present
    subst e2 e3
    rw [show fuel + 3 = (fuel + 2) + 1 from rfl, decodeLoop_field1_last _ _ _ h1]
    simp [AgentMessage.default]
  · -- sender and content present
    subst e2
    rw [show fuel + 3 = (fuel + 2) + 1 from rfl, decodeLoop_field1 _ _ _ _ h1,
      decodeLoop_field3_last _ _ _ h3]
    simp [AgentMessage.default]
  · -- sender and timestamp present
    subst e3
    rw [show fuel + 3 = (fuel + 2) + 1 from rfl, decodeLoop_field1 _ _ _ _ h1,
      decodeLoop_field2_last, hts]
    simp [AgentMessage.default]
  · -- all three fields present
    rw [show fuel + 3 = (fuel + 2) + 1 from rfl, decodeLoop_field1 _ _ _ _ h1,
      decodeLoop_field2, decodeLoop_field3_last _ _ _ h3, hts]

/-- `AgentMessage::deserialize ∘ AgentMessage::serialize` is the identity on
well-formed messages. -/
theorem deserialize_serialize (m : AgentMessage)
    (h1 : utf8Valid m.sender_id) (h3 : utf8Valid m.content)
    (hlo : -(2 ^ 63) ≤ m.timestamp) (hhi : m.timestamp < 2 ^ 63) :
    AgentMessage.deserialize m.serialize = some m :=
  decodeLoop_serialize m h1 h3 hlo hhi m.serialize.length

theorem b64Val_b64Char : ∀ v, v < 64 → b64Val (b64Char v) = some v := by decide

theorem b64Char_ne_pad : ∀ v, ¬ b64Char v = 61 := by
  intro v
  unfold b64Char
  split_ifs <;> omega

theorem b64Char_le : ∀ v, b64Char v ≤ 122 := by
  intro v
  unfold b64Char
  split_ifs <;> omega

theorem base64Encode_ascii :
    ∀ (n : Nat) (l : List Nat), l.length ≤ n → ∀ c ∈ base64Encode l, c ≤ 127 := by
  intro n
  induction n with
  | zero =>
    intro l hl c hc
    cases l with
    | nil => simp [base64Encode] at hc
    | cons b bs => simp at hl
  | succ n ih =>
    intro l hl c hc
    match l with
    | [] => simp [base64Encode] at hc
    | [b0] =>
      simp only [base64Encode, List.mem_cons, List.not_mem_nil, or_false] at hc
      rcases hc with h | h | h | h <;> subst h <;>
        first
          | exact le_trans (b64Char_le _) (by norm_num)
          | norm_num
    | [b0, b1] =>
      simp only [base64Encode, List.mem_cons, List.not_mem_nil, or_false] at hc
      rcases hc with h | h | h | h <;> subst h <;>
        first
          | exact le_trans (b64Char_le _) (by norm_num)
          | norm_num
    | b0 :: b1 :: b2 :: rest =>
      simp only [base64Encode, List.mem_cons] at hc
      rcases hc with h | h | h | h | h
      · subst h; exact le_trans (b64Char_le _) (by norm_num)
      · subst h; exact le_trans (b64Char_le _) (by norm_num)
      · subst h; exact le_trans (b64Char_le _) (by norm_num)
      · subst h; exact le_trans (b64Char_le _) (by norm_num)
      · exact ih rest (by simp at hl; omega) c h

theorem base64Decode_encode :
    ∀ (n : Nat) (l : List Nat), l.length ≤ n → ByteList l →
      base64Decode (base64Encode l) = some l := by
  intro n
  induction n with
  | zero =>
    intro l hl _
    cases l with
    | nil => rfl
    | cons b bs => simp at hl
  | succ n ih =>
    intro l hl hb
    match l with
    | [] => rfl
    | [b0] =>
      have h0 : b0 < 256 := hb b0 (by simp)
      simp only [base64Encode, base64Decode,
        b64Val_b64Char (b0 / 4) (by omega), b64Val_b64Char (b0 % 4 * 16) (by omega)]
      norm_num
      omega
    | [b0, b1] =>
      have h0 : b0 < 256 := hb b0 (by simp)
      have h1 : b1 < 256 := hb b1 (by simp)
      simp only [base64Encode, base64Decode,
        b64Val_b64Char (b0 / 4) (by omega),
        b64Val_b64Char (b0 % 4 * 16 + b1 / 16) (by omega),
        b64Val_b64Char (b1 % 16 * 4) (by omega),
        b64Char_ne_pad, reduceIte, if_false]
      norm_num
      omega
    | b0 :: b1 :: b2 :: rest =>
      have h0 : b0 < 256 := hb b0 (by simp)
      have h1 : b1 < 256 := hb b1 (by simp)
      have h2 : b2 < 256 := hb b2 (by simp)
      have hrec : base64Decode (base64Encode rest) = some rest := by
        refine ih rest (by simp at hl; omega) (fun x hx => hb x (by simp [hx]))
      simp only [base64Encode, base64Decode,
        b64Val_b64Char (b0 / 4) (by omega),
        b64Val_b64Char (b0 % 4 * 16 + b1 / 16) (by omega),
        b64Val_b64Char (b1 % 16 * 4 + b2 / 64) (by omega),
        b64Val_b64Char (b2 % 64) (by omega),
        b64Char_ne_pad, reduceIte, if_false, hrec]
      norm_num
      omega

/-- Base64 decoding inverts encoding on byte strings. -/
theorem base64_roundtrip (l : List Nat) (hb : ByteList l) :
    base64Decode (base64Encode l) = some l :=
  base64Decode_encode l.length l le_rfl hb

/-- The base64 text of any gzip stream (magic bytes `0x1f 0x8b` first)
starts with the characters `H4`. -/
theorem base64_gzip_h4 (rest : List Nat) :
    ∃ t, base64Encode (31 :: 139 :: rest) = 72 :: 52 :: t := by
  cases rest with
  | nil => exact ⟨_, rfl⟩
  | cons x xs => exact ⟨_, rfl⟩

/-- The full sender-to-receiver codec path recovers the original message,
provided a message at or below the compression threshold does not itself
begin with `"H4"` or `"eJ"` (otherwise the receiver's compression heuristic
misfires). -/
theorem pipeline_roundtrip (m : AgentMessage) (t : Nat)
    (h1 : utf8Valid m.sender_id) (h3 : utf8Valid m.content) (hbc : ByteList m.content)
    (hlo : -(2 ^ 63) ≤ m.timestamp) (hhi : m.timestamp < 2 ^ 63)
    (hraw : m.content.length ≤ t →
      leadsWith [72, 52] m.content = false ∧ leadsWith [101, 74] m.content = false) :
    receivePipeline (sendWireBytes m t) = some m := by
  obtain ⟨sid, ts, ct⟩ := m
  simp only at h1 h3 hbc hlo hhi hraw
  by_cases hc : ct.length > t
  · -- compressed branch
    have hsc : should_compress ct t = true := by simp [should_compress, hc]
    have hdata : ByteList (31 :: 139 :: ct) := by
      intro b hbmem
      rcases hbmem with _ | ⟨_, h⟩
      · norm_num
      · rcases h with _ | ⟨_, h⟩
        · norm_num
        · exact hbc b h
    have hascii : ∀ c ∈ base64Encode (31 :: 139 :: ct), c ≤ 127 :=
      base64Encode_ascii (31 :: 139 :: ct).length _ le_rfl
    have hvb : utf8Valid (base64Encode (31 :: 139 :: ct)) = true := utf8Valid_ascii _ hascii
    have hdes :
        AgentMessage.deserialize
            (AgentMessage.serialize ⟨sid, ts, base64Encode (31 :: 139 :: ct)⟩)
          = some ⟨sid, ts, base64Encode (31 :: 139 :: ct)⟩ :=
      deserialize_serialize _ h1 hvb hlo hhi
    obtain ⟨tl, htl⟩ := base64_gzip_h4 ct
    have hb64 : base64Decode (base64Encode (31 :: 139 :: ct)) = some (31 :: 139 :: ct) :=
      base64_roundtrip _ hdata
    have hhint : (leadsWith [72, 52] (72 :: 52 :: tl)
        || leadsWith [101, 74] (72 :: 52 :: tl)) = true := by
      simp [leadsWith]
    have hb64tl : base64Decode (72 :: 52 :: tl) = some (31 :: 139 :: ct) := by
      rw [← htl]
      exact hb64
    simp only [sendWireBytes, AgentMessage.to_compressed, hsc, if_true,
      CompressedAgentMessage.serialize, compress_content, reduceIte,
      receivePipeline, CompressedAgentMessage.deserialize]
    rw [hdes]
    simp only [htl, hhint, if_true, hb64tl, CompressedAgentMessage.to_agent_message,
      decompress_content, h3, reduceIte]
  · -- raw branch
    have hsc : should_compress ct t = false := by simp [should_compress]; omega
    obtain ⟨hr1, hr2⟩ := hraw (by omega)
    have hdes : AgentMessage.deserialize (AgentMessage.serialize ⟨sid, ts, ct⟩)
        = some ⟨sid, ts, ct⟩ := deserialize_serialize _ h1 h3 hlo hhi
    simp only [sendWireBytes, AgentMessage.to_compressed, hsc, Bool.false_eq_true, if_false,
      CompressedAgentMessage.serialize, reduceIte,
      receivePipeline, CompressedAgentMessage.deserialize, hdes, hr1, hr2, Bool.or_self,
      Bool.false_or, if_false, CompressedAgentMessage.to_agent_message, h3, if_true]

/-! ## Claim theorems -/

/-- C5: `should_compress(text, threshold)` is true iff the byte length of
the text strictly exceeds the threshold; consequently `to_compressed`
yields an uncompressed envelope (raw bytes) at exactly the threshold and a
compressed one (gzip bytes) one byte over it, with `original_size` equal to
the content byte length in both branches. -/
theorem should_compress_threshold (m : AgentMessage) (t : Nat) :
    (∀ c : List Nat, should_compress c t = decide (c.length > t))
    ∧ (m.content.length = t →
        (m.to_compressed t).is_compressed = false
        ∧ (m.to_compressed t).compressed_data = m.content
        ∧ (m.to_compressed t).original_size = m.content.length)
    ∧ (m.content.length = t + 1 →
        (m.to_compressed t).is_compressed = true
        ∧ (m.to_compressed t).compressed_data = compress_content m.content
        ∧ (m.to_compressed t).original_size = m.content.length) := by
  refine ⟨fun c => rfl, fun he => ?_, fun he => ?_⟩
  · have : should_compress m.content t = false := by
      simp only [should_compress, decide_eq_false_iff_not, decide_eq_true_eq]
      omega
    simp [AgentMessage.to_compressed, this]
  · have : should_compress m.content t = true := by
      simp only [should_compress, decide_eq_false_iff_not, decide_eq_true_eq]
      omega
    simp [AgentMessage.to_compressed, this]

theorem should_compress_threshold_witness :
    ((⟨[65], 0, [104, 105]⟩ : AgentMessage).to_compressed 2).is_compressed = false
    ∧ ((⟨[65], 0, [104, 105]⟩ : AgentMessage).to_compressed 1).is_compressed = true := by
  refine ⟨((should_compress_threshold ⟨[65], 0, [104, 105]⟩ 2).2.1 (by decide)).1,
    ((should_compress_threshold ⟨[65], 0, [104, 105]⟩ 1).2.2 (by decide)).1⟩

/-- C8: protobuf round trip — deserializing the bytes produced by
serializing any message (valid-UTF-8 string fields, `i64` timestamp)
recovers the message exactly. -/
theorem message_serialization_roundtrip (m : AgentMessage)
    (h1 : utf8Valid m.sender_id) (h3 : utf8Valid m.content)
    (hlo : -(2 ^ 63) ≤ m.timestamp) (hhi : m.timestamp < 2 ^ 63) :
    AgentMessage.deserialize m.serialize = some m :=
  deserialize_serialize m h1 h3 hlo hhi

theorem message_serialization_roundtrip_witness :
    AgentMessage.deserialize
        (AgentMessage.serialize ⟨[97, 45, 49], 1640995200, [72, 105, 32, 240, 159, 140, 141]⟩)
      = some ⟨[97, 45, 49], 1640995200, [72, 105, 32, 240, 159, 140, 141]⟩
    ∧ AgentMessage.deserialize (AgentMessage.serialize ⟨[97], -7, []⟩) = some ⟨[97], -7, []⟩ :=
  ⟨message_serialization_roundtrip _ (by decide) (by decide) (by decide) (by decide),
    message_serialization_roundtrip _ (by decide) (by decide) (by decide) (by decide)⟩

/-- C9: envelope round trip — converting a message to an envelope with
`to_compressed` and back with `to_agent_message` recovers it in both the
raw and the compressed branch, and decompression inverts compression on any
content string (including the empty one). -/
theorem envelope_roundtrip (m : AgentMessage) (t : Nat) (h3 : utf8Valid m.content) :
    (m.to_compressed t).to_agent_message = some m
    ∧ decompress_content (compress_content m.content) = some m.content := by
  obtain ⟨sid, ts, ct⟩ := m
  simp only at h3
  constructor
  · by_cases hc : ct.length > t
    · have hsc : should_compress ct t = true := by
        simp only [should_compress, decide_eq_false_iff_not, decide_eq_true_eq]
        omega
      simp [AgentMessage.to_compressed, hsc, CompressedAgentMessage.to_agent_message,
        decompress_content, compress_content, h3]
    · have hsc : should_compress ct t = false := by
        simp only [should_compress, decide_eq_false_iff_not, decide_eq_true_eq]
        omega
      simp [AgentMessage.to_compressed, hsc, CompressedAgentMessage.to_agent_message, h3]
  · simp [decompress_content, compress_content, h3]

theorem envelope_roundtrip_witness :
    ((⟨[97], 3, []⟩ : AgentMessage).to_compressed 0).to_agent_message = some ⟨[97], 3, []⟩
    ∧ ((⟨[97], 3, [104, 105]⟩ : AgentMessage).to_compressed 1).to_agent_message
        = some ⟨[97], 3, [104, 105]⟩
    ∧ ((⟨[97], 3, [104, 105]⟩ : AgentMessage).to_compressed 2).to_agent_message
        = some ⟨[97], 3, [104, 105]⟩ :=
  ⟨(envelope_roundtrip ⟨[97], 3, []⟩ 0 (by decide)).1,
    (envelope_roundtrip ⟨[97], 3, [104, 105]⟩ 1 (by decide)).1,
    (envelope_roundtrip ⟨[97], 3, [104, 105]⟩ 2 (by decide)).1⟩

/-- C1 counterexample: the message `"H4"` (sender `"A"`, timestamp 0) sent
uncompressed at threshold 2 is misclassified as compressed by the
receiver's prefix heuristic, so the decode fails instead of returning the
original message. -/
theorem heuristic_misfire_cex :
    receivePipeline (sendWireBytes ⟨[65], 0, [72, 52]⟩ 2) ≠ some ⟨[65], 0, [72, 52]⟩ := by
  decide

/-- C1 (amended): the sender-side encode (`to_compressed` then
`CompressedAgentMessage::serialize`) followed by the receiver-side decode
(`AgentMessage::deserialize`, prefix heuristic,
`CompressedAgentMessage::deserialize`, `to_agent_message`) recovers
`sender_id`, `timestamp` and `content` exactly, for content above the
threshold and also at or below it — provided, in the latter case, that the
content does not itself begin with `"H4"` or `"eJ"`. -/
theorem send_receive_roundtrip_amended (m : AgentMessage) (t : Nat)
    (h1 : utf8Valid m.sender_id) (h3 : utf8Valid m.content) (hbc : ByteList m.content)
    (hlo : -(2 ^ 63) ≤ m.timestamp) (hhi : m.timestamp < 2 ^ 63)
    (hraw : m.content.length ≤ t →
      leadsWith [72, 52] m.content = false ∧ leadsWith [101, 74] m.content = false) :
    receivePipeline (sendWireBytes m t) = some m :=
  pipeline_roundtrip m t h1 h3 hbc hlo hhi hraw

theorem send_receive_roundtrip_amended_witness :
    receivePipeline (sendWireBytes ⟨[66], 5, [104, 105]⟩ 1) = some ⟨[66], 5, [104, 105]⟩
    ∧ receivePipeline (sendWireBytes ⟨[66], 5, [104, 105]⟩ 2) = some ⟨[66], 5, [104, 105]⟩ :=
  ⟨send_receive_roundtrip_amended ⟨[66], 5, [104, 105]⟩ 1 (by decide) (by decide) (by decide)
      (by decide) (by decide) (by decide),
    send_receive_roundtrip_amended ⟨[66], 5, [104, 105]⟩ 2 (by decide) (by decide) (by decide)
      (by decide) (by decide) (by decide)⟩

/-- C2 counterexample: the retry delays configured in
`spawn_llm_processing_task` are `[100, 10000, 10000, 10000, 10000]` ms,
which fit no initial-delay-doubling-capped schedule at all (doubling from
100 ms would give 200 ms as the second delay). -/
theorem retry_delays_not_doubling :
    ¬ ∃ init cap, codeRetryDelays =
      [min init cap, min (init * 2) cap, min (init * 4) cap,
        min (init * 8) cap, min (init * 16) cap] := by
  rintro ⟨init, cap, h⟩
  have hd : codeRetryDelays = [100, 10000, 10000, 10000, 10000] := rfl
  rw [hd] at h
  simp only [List.cons.injEq, and_true] at h
  omega

/-- C2 (amended): the processing loop runs the reply generator under the
`tokio-retry` policy whose sleep delays start at 100 ms and multiply by 100
per attempt, capped at 10 s, for at most five retries (six attempts in
total); if every attempt fails, the error of the final attempt is rendered
as the reply content and the loop iteration still broadcasts a reply and
continues rather than aborting. -/
theorem retry_policy_amended :
    codeRetryDelays.length = 5
    ∧ (∀ i, i < 5 → codeRetryDelays.getD i 0 = min (100 ^ (i + 1)) 10000)
    ∧ (∀ (llmAttempts : Nat → Except (List Nat) (List Nat)) (e : Nat → List Nat),
        (∀ j, j ≤ 5 → llmAttempts j = .error (e j)) →
        retryRun llmAttempts codeRetryDelays 0 = .error (e 5))
    ∧ (∀ (agent_id : List Nat) (now : Int) (msg : AgentMessage)
        (llmAttempts : Nat → Except (List Nat) (List Nat)) (e : Nat → List Nat),
        (∀ j, j ≤ 5 → llmAttempts j = .error (e j)) →
        processStep agent_id now (.ok msg) llmAttempts true
          = .sentReply ⟨agent_id, now, e 5⟩) := by
  have hrun : ∀ (llmAttempts : Nat → Except (List Nat) (List Nat)) (e : Nat → List Nat),
      (∀ j, j ≤ 5 → llmAttempts j = .error (e j)) →
      retryRun llmAttempts codeRetryDelays 0 = .error (e 5) := by
    intro f e hf
    have hd : codeRetryDelays = [100, 10000, 10000, 10000, 10000] := rfl
    rw [hd]
    simp [retryRun, hf 0 (by omega), hf 1 (by omega), hf 2 (by omega), hf 3 (by omega),
      hf 4 (by omega), hf 5 (by omega)]
  refine ⟨rfl, by decide, hrun, ?_⟩
  intro agent_id now msg f e hf
  simp [processStep, processReply, hrun f e hf]

theorem retry_policy_amended_witness :
    retryRun (fun _ => (Except.error [120] : Except (List Nat) (List Nat)))
        codeRetryDelays 0 = Except.error [120]
    ∧ processStep [65] 9 (.ok ⟨[66], 0, []⟩)
        (fun _ => (Except.error [120] : Except (List Nat) (List Nat))) true
        = .sentReply ⟨[65], 9, [120]⟩ :=
  ⟨retry_policy_amended.2.2.1 (fun _ => Except.error [120]) (fun _ => [120])
      (fun _ _ => rfl),
    retry_policy_amended.2.2.2 [65] 9 ⟨[66], 0, []⟩ (fun _ => Except.error [120])
      (fun _ => [120]) (fun _ _ => rfl)⟩

/-- C3 counterexample: opening the transport on the IPv6 multicast group
`ff02::1` does fail, but only after socket creation, the reuse options and
the wildcard bind have already been attempted — not before any socket
operation as claimed. -/
theorem ipv6_rejected_after_socket_ops :
    (networkNew ⟨.v6 [65282, 0, 0, 0, 0, 0, 0, 1], 8080, none, 1024, 1024⟩
      (fun _ => true)).1 ≠ [] := by
  decide

/-- C3 (amended): a non-multicast group address (such as `192.168.1.1`) is
rejected with the invalid-address configuration error before any socket
operation is attempted; an IPv6 multicast group address is rejected with
the IPv6-unsupported configuration error, but only after socket creation,
the reuse options and the wildcard bind have been performed. -/
theorem multicast_validation_amended :
    (∀ (config : NetworkConfig) (os : SockOp → Bool),
      config.multicast_ip.isMulticast = false →
      networkNew config os = ([], .error (.configError .notMulticast)))
    ∧ (∀ (config : NetworkConfig) (segs : List Nat) (os : SockOp → Bool),
        config.multicast_ip = .v6 segs → config.multicast_ip.isMulticast = true →
        (∀ op, os op = true) →
        networkNew config os =
          ([.socketCreate, .setReuseAddr, .setReusePort, .bindWildcard config.port],
            .error (.configError .ipv6Unsupported))) := by
  constructor
  · intro config os h
    simp [networkNew, h]
  · intro config segs os hv6 hmc hos
    rw [hv6] at hmc
    simp [networkNew, hv6, hmc, create_multicast_socket, hos]

theorem multicast_validation_amended_witness :
    networkNew ⟨.v4 192 168 1 1, 8080, none, 1024, 1024⟩ (fun _ => true)
        = ([], .error (.configError .notMulticast))
    ∧ networkNew ⟨.v6 [65282, 0, 0, 0, 0, 0, 0, 1], 8081, none, 1024, 1024⟩ (fun _ => true)
        = ([.socketCreate, .setReuseAddr, .setReusePort, .bindWildcard 8081],
            .error (.configError .ipv6Unsupported)) :=
  ⟨multicast_validation_amended.1 ⟨.v4 192 168 1 1, 8080, none, 1024, 1024⟩ (fun _ => true)
      (by decide),
    multicast_validation_amended.2 ⟨.v6 [65282, 0, 0, 0, 0, 0, 0, 1], 8081, none, 1024, 1024⟩
      [65282, 0, 0, 0, 0, 0, 0, 1] (fun _ => true) rfl (by decide) (fun _ => rfl)⟩

/-- C10: an interface string that does not parse as an IPv4 address does
not make the transport open fail — it falls back to joining on the
wildcard interface, so opening behaves exactly as with no configured
interface. -/
theorem interface_fallback_wildcard (s : List Char) (config : NetworkConfig)
    (os : SockOp → Bool) (h : parseIpv4 s = none) :
    networkNew { config with interface := some s } os
      = networkNew { config with interface := none } os := by
  unfold networkNew create_multicast_socket interfaceIp
  simp [h]

theorem interface_fallback_wildcard_witness :
    networkNew ⟨.v4 239 255 255 250, 8080, some ['e', 't', 'h', '0'], 1024, 1024⟩
        (fun _ => true)
      = networkNew ⟨.v4 239 255 255 250, 8080, none, 1024, 1024⟩ (fun _ => true) :=
  interface_fallback_wildcard ['e', 't', 'h', '0']
    ⟨.v4 239 255 255 250, 8080, none, 1024, 1024⟩ (fun _ => true) (by decide)

/-- C4 counterexample: when the channel's consuming side is gone
(`receiverClosed`), a successfully received message's failed push is merely
logged and the intake iteration still continues — the loop does not
terminate on a channel-closed push result as claimed. -/
theorem intake_continues_on_closed_cex :
    intakeStep ⟨[65], 8⟩ ⟨[], true, false⟩ (.ok ⟨[66], 0, []⟩)
      = .continued ⟨[], true, false⟩ := by
  decide

/-- C4 (amended): the intake loop never terminates on a decode error from
receive, nor on any result of the non-blocking push — full *and* closed
push results are both logged and looped past, the message being dropped —
and it terminates, reporting the error upward, exactly when receive
returns a transport error other than a decode error. -/
theorem intake_loop_termination_amended (h : MessageHandler) (st : ChannelState)
    (recv : Except NetworkError AgentMessage) :
    (∀ e, intakeStep h st recv = .failed e ↔
      (recv = .error e ∧ e ≠ .deserializationError))
    ∧ intakeStep h st (.error .deserializationError) = .continued st
    ∧ (∀ msg st2, h.try_send_message st msg = .ok st2 →
        intakeStep h st (.ok msg) = .continued st2)
    ∧ (∀ msg er, h.try_send_message st msg = .error er →
        intakeStep h st (.ok msg) = .continued st) := by
  refine ⟨?_, by simp [intakeStep], ?_, ?_⟩
  · intro e
    rcases recv with e0 | msg
    · rcases e0 <;> simp [intakeStep] <;>
        (intro h1
         subst h1
         simp)
    · simp only [intakeStep]
      rcases hts : h.try_send_message st msg with er | st2 <;> simp
  · intro msg st2 hs
    simp [intakeStep, hs]
  · intro msg er hs
    simp [intakeStep, hs]

theorem intake_loop_termination_amended_witness :
    intakeStep ⟨[65], 8⟩ ⟨[], false, false⟩ (.error .receiveError) = .failed .receiveError
    ∧ intakeStep ⟨[65], 0⟩ ⟨[], false, false⟩ (.ok ⟨[66], 0, []⟩)
        = .continued ⟨[], false, false⟩ :=
  ⟨((intake_loop_termination_amended ⟨[65], 8⟩ ⟨[], false, false⟩
        (.error .receiveError)).1 .receiveError).mpr ⟨rfl, by decide⟩,
    (intake_loop_termination_amended ⟨[65], 0⟩ ⟨[], false, false⟩
        (.ok ⟨[66], 0, []⟩)).2.2.2 ⟨[66], 0, []⟩ (.channelSendError .bufferFull) rfl⟩

/-- C6: with own id `"A"`, popping after buffering messages from senders
`"A"`, `"B"`, `"A"`, `"C"` (pushed in that order) yields exactly the `"B"`
message and then the `"C"` message; a message whose sender equals the own
id is never returned by a pop; and a pop on a drained buffer with the
producer side gone fails with the closed error. -/
theorem queue_self_filtering (mA mB mA2 mC : AgentMessage)
    (hA : mA.sender_id = [65]) (hB : mB.sender_id = [66])
    (hA2 : mA2.sender_id = [65]) (hC : mC.sender_id = [67]) :
    ((MessageHandler.new [65] ⟨1000⟩).1.try_send_message
        (MessageHandler.new [65] ⟨1000⟩).2 mA = .ok ⟨[mA], false, false⟩
      ∧ (MessageHandler.new [65] ⟨1000⟩).1.try_send_message
          ⟨[mA], false, false⟩ mB = .ok ⟨[mA, mB], false, false⟩
      ∧ (MessageHandler.new [65] ⟨1000⟩).1.try_send_message
          ⟨[mA, mB], false, false⟩ mA2 = .ok ⟨[mA, mB, mA2], false, false⟩
      ∧ (MessageHandler.new [65] ⟨1000⟩).1.try_send_message
          ⟨[mA, mB, mA2], false, false⟩ mC = .ok ⟨[mA, mB, mA2, mC], false, false⟩)
    ∧ (MessageHandler.new [65] ⟨1000⟩).1.receive_message true [mA, mB, mA2, mC]
        = .got mB [mA2, mC]
    ∧ (MessageHandler.new [65] ⟨1000⟩).1.receive_message true [mA2, mC] = .got mC []
    ∧ (MessageHandler.new [65] ⟨1000⟩).1.receive_message true [] = .closedErr
    ∧ (∀ (h : MessageHandler) (sc : Bool) (buf : List AgentMessage) m rest,
        h.receive_message sc buf = .got m rest → m.sender_id ≠ h.agent_id) := by
  refine ⟨⟨?_, ?_, ?_, ?_⟩, ?_, ?_, by simp [MessageHandler.receive_message], ?_⟩
  · simp [MessageHandler.new, MessageHandler.try_send_message]
  · simp [MessageHandler.new, MessageHandler.try_send_message]
  · simp [MessageHandler.new, MessageHandler.try_send_message]
  · simp [MessageHandler.new, MessageHandler.try_send_message]
  · simp [MessageHandler.new, MessageHandler.receive_message, hA, hB]
  · simp [MessageHandler.new, MessageHandler.receive_message, hA2, hC]
  · intro h sc buf
    induction buf with
    | nil =>
      intro m rest hr
      by_cases hsc : sc = true <;> simp [MessageHandler.receive_message, hsc] at hr
    | cons x xs ih =>
      intro m rest hr
      by_cases hx : x.sender_id = h.agent_id
      · exact ih m rest (by simpa [MessageHandler.receive_message, hx] using hr)
      · simp only [MessageHandler.receive_message, hx, if_false, reduceIte] at hr
        cases hr
        exact hx

theorem queue_self_filtering_witness :
    (MessageHandler.new [65] ⟨1000⟩).1.receive_message true
        [⟨[65], 1, []⟩, ⟨[66], 2, []⟩, ⟨[65], 3, []⟩, ⟨[67], 4, []⟩]
      = .got ⟨[66], 2, []⟩ [⟨[65], 3, []⟩, ⟨[67], 4, []⟩]
    ∧ (MessageHandler.new [65] ⟨1000⟩).1.receive_message true
        [⟨[65], 3, []⟩, ⟨[67], 4, []⟩] = .got ⟨[67], 4, []⟩ []
    ∧ (MessageHandler.new [65] ⟨1000⟩).1.receive_message true [] = .closedErr :=
  ⟨(queue_self_filtering ⟨[65], 1, []⟩ ⟨[66], 2, []⟩ ⟨[65], 3, []⟩ ⟨[67], 4, []⟩
      rfl rfl rfl rfl).2.1,
    (queue_self_filtering ⟨[65], 1, []⟩ ⟨[66], 2, []⟩ ⟨[65], 3, []⟩ ⟨[67], 4, []⟩
      rfl rfl rfl rfl).2.2.1,
    (queue_self_filtering ⟨[65], 1, []⟩ ⟨[66], 2, []⟩ ⟨[65], 3, []⟩ ⟨[67], 4, []⟩
      rfl rfl rfl rfl).2.2.2.1⟩

/-- C7: on a queue of capacity 2, two consecutive non-blocking pushes
succeed and a third before any pop fails with the buffer-full error; the
non-blocking push fails with the closed error exactly when the consuming
side is gone. -/
theorem queue_backpressure (agent : List Nat) (m1 m2 m3 : AgentMessage) :
    ((MessageHandler.new agent ⟨2⟩).1.try_send_message
        (MessageHandler.new agent ⟨2⟩).2 m1 = .ok ⟨[m1], false, false⟩
      ∧ (MessageHandler.new agent ⟨2⟩).1.try_send_message
          ⟨[m1], false, false⟩ m2 = .ok ⟨[m1, m2], false, false⟩
      ∧ (MessageHandler.new agent ⟨2⟩).1.try_send_message
          ⟨[m1, m2], false, false⟩ m3 = .error (.channelSendError .bufferFull))
    ∧ (∀ (h : MessageHandler) (st : ChannelState) msg,
        h.try_send_message st msg = .error .channelClosed ↔ st.receiverClosed = true) := by
  refine ⟨⟨?_, ?_, ?_⟩, ?_⟩
  · simp [MessageHandler.new, MessageHandler.try_send_message]
  · simp [MessageHandler.new, MessageHandler.try_send_message]
  · simp [MessageHandler.new, MessageHandler.try_send_message]
  · intro h st msg
    unfold MessageHandler.try_send_message
    by_cases hcl : st.receiverClosed = true
    · simp [hcl]
    · simp only [hcl, Bool.false_eq_true, if_false, reduceIte]
      by_cases hfull : h.capacity ≤ st.buffer.length <;> simp [hfull, hcl]

theorem queue_backpressure_witness :
    (MessageHandler.new [65] ⟨2⟩).1.try_send_message
        ⟨[⟨[66], 1, []⟩, ⟨[66], 2, []⟩], false, false⟩ ⟨[66], 3, []⟩
      = .error (.channelSendError .bufferFull)
    ∧ (MessageHandler.new [65] ⟨2⟩).1.try_send_message ⟨[], true, false⟩ ⟨[66], 3, []⟩
        = .error .channelClosed :=
  ⟨(queue_backpressure [65] ⟨[66], 1, []⟩ ⟨[66], 2, []⟩ ⟨[66], 3, []⟩).1.2.2,
    ((queue_backpressure [65] ⟨[66], 1, []⟩ ⟨[66], 2, []⟩ ⟨[66], 3, []⟩).2
      (MessageHandler.new [65] ⟨2⟩).1 ⟨[], true, false⟩ ⟨[66], 3, []⟩).mpr rfl⟩

end Conclave
